import Mathlib

/-!
Verification of the weekly Excel data script (`circana_data_script.py`).

The Python source is shallowly embedded as follows.

* Filenames and paths are `String`s; character-level work happens on `String.data`.
* The two `re.search` calls are embedded as explicit left-to-right scans
  (`searchDot`, `searchWE`); the character classes are the ASCII parts of the
  regex classes' semantics, which is what the filenames here use.
* `datetime.now()` is injected as an explicit clock argument `now : Nat`, the
  rata die day number (0001-01-01 = day 1) of today's date; `timedelta`
  subtraction becomes subtraction of day numbers and `fromDays` recovers the
  (year, month, day) fields, using the standard civil-from-days algorithm.
* The filesystem is a finite map from path to file contents (`World.files`),
  together with the only part of the environment the script's failure behaviour
  depends on: which save destinations and move destinations raise `OSError`
  (`World.badSave`, `World.badMove`).  `os.makedirs` is a no-op in this
  file-map model (directories are implicit).
* Python exceptions become `Except`; the error of a compound operation carries
  the world as it stands when the exception propagates, since side effects
  performed before the raise are kept.
-/

set_option maxRecDepth 10000

namespace Circana

/-- ASCII decimal digit test, embedding the regex class `\d` on these filenames. -/
def isDigitChar (c : Char) : Bool := c.isDigit

/-- ASCII whitespace test, embedding the regex class `\s`. -/
def isSpaceChar (c : Char) : Bool :=
  c == ' ' || c == '\t' || c == '\n' || c == '\r' || c == '\x0b' || c == '\x0c'

/-- Numeric value of a decimal digit character, as in Python int() per digit. -/
def digitVal (c : Char) : Nat := c.toNat - 48

/-- Value of a two-digit group, as Python's int() on the captured group. -/
def twoDigitVal (a b : Char) : Nat := 10 * digitVal a + digitVal b

/-- One attempted match of `(\d{2})\.(\d{2})\.(\d{2})` at the head of the list. -/
def matchDotAt : List Char → Option (Nat × Nat × Nat)
  | a :: b :: p :: c :: d :: q :: e :: f :: _ =>
    if isDigitChar a && isDigitChar b && p == '.' && isDigitChar c && isDigitChar d &&
        q == '.' && isDigitChar e && isDigitChar f then
      some (twoDigitVal a b, twoDigitVal c d, twoDigitVal e f)
    else none
  | _ => none

/-- Leftmost match of the dotted date pattern, embedding `re.search(dot_pattern, ·)`. -/
def searchDot : List Char → Option (Nat × Nat × Nat)
  | [] => none
  | c :: cs =>
    match matchDotAt (c :: cs) with
    | some r => some r
    | none => searchDot cs

/-- Match of `(\d{2})(\d{2})(\d{2})` at the head of the list. -/
def sixDigits : List Char → Option (Nat × Nat × Nat)
  | a :: b :: c :: d :: e :: f :: _ =>
    if isDigitChar a && isDigitChar b && isDigitChar c && isDigitChar d &&
        isDigitChar e && isDigitChar f then
      some (twoDigitVal a b, twoDigitVal c d, twoDigitVal e f)
    else none
  | _ => none

/-- One attempted match of `WE\s+(\d{2})(\d{2})(\d{2})` at the head of the list.
`\s+` is greedy; a digit is never whitespace, so consuming all whitespace and then
requiring six digits is equivalent to the regex's backtracking semantics. -/
def matchWEAt : List Char → Option (Nat × Nat × Nat)
  | c₁ :: c₂ :: c₃ :: rest =>
    if c₁ == 'W' && c₂ == 'E' && isSpaceChar c₃ then
      sixDigits (rest.dropWhile isSpaceChar)
    else none
  | _ => none

/-- Leftmost match of the WE pattern, embedding `re.search(no_dot_pattern, ·)`. -/
def searchWE : List Char → Option (Nat × Nat × Nat)
  | [] => none
  | c :: cs =>
    match matchWEAt (c :: cs) with
    | some r => some r
    | none => searchWE cs

/-- Gregorian leap-year test, as in the datetime library's calendar. -/
def isLeap (y : Nat) : Bool := (y % 4 == 0 && y % 100 != 0) || y % 400 == 0

/-- Days before the first of month `m` in year `y`. -/
def daysBeforeMonth (y m : Nat) : Nat :=
  (match m with
   | 1 => 0 | 2 => 31 | 3 => 59 | 4 => 90 | 5 => 120 | 6 => 151
   | 7 => 181 | 8 => 212 | 9 => 243 | 10 => 273 | 11 => 304 | _ => 334) +
  (if 3 ≤ m then (if isLeap y then 1 else 0) else 0)

/-- Rata die day number of a proleptic-Gregorian date (0001-01-01 = day 1),
as used by the datetime library's date ordinal. -/
def toDays (y m d : Nat) : Nat :=
  365 * (y - 1) + (y - 1) / 4 + (y - 1) / 400 - (y - 1) / 100 + daysBeforeMonth y m + d

/-- The (year, month, day) of a rata die day number: the standard era-based
civil-from-days algorithm, embedding the datetime library's date arithmetic. -/
def fromDays (n : Nat) : Nat × Nat × Nat :=
  let z := n + 305
  let era := z / 146097
  let doe := z % 146097
  let yoe := (doe - doe / 1460 + doe / 36524 - doe / 146096) / 365
  let y := yoe + era * 400
  let doy := doe - (365 * yoe + yoe / 4 - yoe / 100)
  let mp := (5 * doy + 2) / 153
  let d := doy - (153 * mp + 2) / 5 + 1
  let m := if mp < 10 then mp + 3 else mp - 9
  (if m ≤ 2 then y + 1 else y, m, d)

/-- Python's datetime.weekday(): Monday = 0 … Sunday = 6, of a rata die day number
(day 1, 0001-01-01, was a Monday). -/
def pyWeekday (n : Nat) : Nat := (n - 1) % 7

/-- Embedding of `extract_date_from_filename`.  The current clock is the explicit
argument `now`, the rata die day number of `datetime.now()`'s date.  Returns
(month, day, year). -/
def extract_date_from_filename (now : Nat) (filename : String) : Nat × Nat × Nat :=
  match searchDot filename.data with
  | some (month, day, year) => (month, day, 2000 + year)
  | none =>
    match searchWE filename.data with
    | some (month, day, year) => (month, day, 2000 + year)
    | none =>
      let days_since_sunday := pyWeekday now + 1
      let previous_sunday := fromDays (now - days_since_sunday)
      (previous_sunday.2.1, previous_sunday.2.2, previous_sunday.1)

/-- Decimal digit list of a natural number (most significant first), embedding
Python's str() on a nonnegative int; the first argument is recursion fuel. -/
def natToDecAux : Nat → Nat → List Char
  | 0, _ => []
  | fuel + 1, n =>
    if n < 10 then [Nat.digitChar n]
    else natToDecAux fuel (n / 10) ++ [Nat.digitChar (n % 10)]

/-- Decimal rendering of a natural number. -/
def natToDec (n : Nat) : List Char := natToDecAux (n + 1) n

/-- Embedding of the format directive `{:02d}`: left-pad with zero to width two. -/
def pad2 (n : Nat) : List Char := if n < 10 then '0' :: natToDec n else natToDec n

/-- Embedding of `format_date`: the f-string `"{month:02d}-{day:02d}-{year}"`. -/
def format_date (t : Nat × Nat × Nat) : String :=
  String.mk (pad2 t.1 ++ '-' :: pad2 t.2.1 ++ '-' :: natToDec t.2.2)

/-- Embedding of `create_new_filename`. -/
def create_new_filename (now : Nat) (original_filename : String) : String :=
  format_date (extract_date_from_filename now original_filename) ++ "_" ++ original_filename

/-- POSIX basename on a character list: the run after the last slash. -/
def basenameL (l : List Char) : List Char := (l.reverse.takeWhile (fun c => c != '/')).reverse

/-- Embedding of `os.path.basename`. -/
def basename (p : String) : String := String.mk (basenameL p.data)

/-- Embedding of `os.path.join` for one component (POSIX rules). -/
def joinPath (dir name : String) : String :=
  if name.data.head? = some '/' then name
  else if dir.data = [] then name
  else if dir.data.getLast? = some '/' then String.mk (dir.data ++ name.data)
  else String.mk (dir.data ++ '/' :: name.data)

/-- Embedding of `get_output_path`; `os.makedirs` is a no-op in the file-map model. -/
def get_output_path (filename output_dir : String) : String := joinPath output_dir filename

/-- Embedding of `get_archive_path`; `os.makedirs` is a no-op in the file-map model. -/
def get_archive_path (filename archive_dir : String) : String := joinPath archive_dir filename

/-- One worksheet: its visibility state and abstract cell contents. -/
structure Sheet where
  sheet_state : String
  payload : Nat
  deriving DecidableEq

/-- An openpyxl workbook: its list of worksheets. -/
structure Workbook where
  worksheets : List Sheet
  deriving DecidableEq

/-- A file on disk: either bytes that parse as a workbook, or raw bytes that do not. -/
inductive FSFile where
  | wb (b : Workbook)
  | raw (data : Nat)
  deriving DecidableEq

/-- The filesystem world: a finite path-to-file map plus the environment's fault
model recording which save destinations and move destinations raise `OSError`. -/
structure World where
  files : List (String × FSFile)
  badSave : String → Bool
  badMove : String → Bool

/-- Contents at a path, if any. -/
def lookupFile (w : World) (p : String) : Option FSFile := w.files.lookup p

/-- Remove every entry at path `p`. -/
def removeFile (files : List (String × FSFile)) (p : String) : List (String × FSFile) :=
  files.filter (fun e => e.1 != p)

/-- Write `f` at path `p`, replacing any previous entry. -/
def setFile (files : List (String × FSFile)) (p : String) (f : FSFile) :
    List (String × FSFile) :=
  (p, f) :: removeFile files p

/-- Embedding of `openpyxl.load_workbook`: fails on a missing or unparseable file. -/
def loadWorkbook (w : World) (p : String) : Except String Workbook :=
  match lookupFile w p with
  | some (FSFile.wb b) => Except.ok b
  | some (FSFile.raw _) => Except.error ("cannot parse workbook: " ++ p)
  | none => Except.error ("no such file: " ++ p)

/-- Embedding of `Workbook.save`: fails where the fault model says writing raises. -/
def saveWorkbook (w : World) (p : String) (b : Workbook) : Except String World :=
  if w.badSave p then Except.error ("cannot save: " ++ p)
  else Except.ok { w with files := setFile w.files p (FSFile.wb b) }

/-- Embedding of `shutil.move`: the destination receives the source's bytes and the
source entry is removed; fails on a missing source or a faulted destination. -/
def moveFile (w : World) (src dst : String) : Except String World :=
  match lookupFile w src with
  | none => Except.error ("no such file: " ++ src)
  | some f =>
    if w.badMove dst then Except.error ("cannot move to: " ++ dst)
    else Except.ok { w with files := setFile (removeFile w.files src) dst f }

/-- Force every worksheet of a workbook to the visible state. -/
def unhideWb (b : Workbook) : Workbook :=
  ⟨b.worksheets.map (fun s => { s with sheet_state := "visible" })⟩

/-- Embedding of `unhide_all_sheets`: load, set every sheet visible, save to the
output path if given and to the source path otherwise. -/
def unhide_all_sheets (w : World) (excel_path : String) (output_path : Option String) :
    Except String World :=
  match loadWorkbook w excel_path with
  | Except.error e => Except.error e
  | Except.ok b =>
    match output_path with
    | some op => saveWorkbook w op (unhideWb b)
    | none => saveWorkbook w excel_path (unhideWb b)

/-- Embedding of `process_excel_file`.  On error the carried world is the world as it
stands when the exception propagates (side effects already performed are kept). -/
def process_excel_file (now : Nat) (excel_path output_dir archive_dir : String) (w : World) :
    Except (String × World) (String × World) :=
  let filename := basename excel_path
  let new_filename := create_new_filename now filename
  let output_path := get_output_path new_filename output_dir
  let archive_path := get_archive_path filename archive_dir
  match unhide_all_sheets w excel_path (some output_path) with
  | Except.error e => Except.error (e, w)
  | Except.ok w1 =>
    match moveFile w1 excel_path archive_path with
    | Except.error e => Except.error (e, w1)
    | Except.ok w2 => Except.ok (output_path, w2)

/-- Directory prefix used to test whether a path lies in a directory. -/
def dirPrefixL (dir : List Char) : List Char :=
  if dir.getLast? = some '/' then dir else dir ++ ['/']

/-- Entry name of `p` relative to directory `dir`, when `p` lies directly in `dir`. -/
def childName (dir p : List Char) : Option (List Char) :=
  if (dirPrefixL dir).isPrefixOf p then
    let name := p.drop (dirPrefixL dir).length
    if name.contains '/' || name.isEmpty then none else some name
  else none

/-- fnmatch of the glob pattern `*` ++ ext: `*` matches any run, except that glob
hides entries whose name begins with a dot. -/
def matchStarExt (name ext : List Char) : Bool :=
  ext.isSuffixOf name && !(name.head? == some '.')

/-- Embedding of `glob.glob(os.path.join(directory, "*" ++ ext))`: the paths of the
directory's direct entries whose name matches the pattern. -/
def globExt (w : World) (directory : String) (ext : List Char) : List String :=
  (w.files.map Prod.fst).filter (fun p =>
    match childName directory.data p.data with
    | some name => matchStarExt name ext
    | none => false)

/-- Python's substring test `pat in s`. -/
def containsSub (pat : List Char) : List Char → Bool
  | [] => pat.isEmpty
  | c :: cs => pat.isPrefixOf (c :: cs) || containsSub pat cs

/-- Embedding of `find_excel_files`. -/
def find_excel_files (w : World) (directory : String) : List String :=
  let excel_files := globExt w directory ".xlsx".data ++ globExt w directory ".xls".data
  excel_files.filter (fun p =>
    !(containsSub "modified_excel_workbooks".data p.data) &&
    !(containsSub "archived_data".data p.data))

/-- One entry of the result mapping of `process_all_excel_files`. -/
structure FileResult where
  status : Bool
  output : Option String
  error : Option String
  deriving DecidableEq

/-- The per-file loop of `process_all_excel_files`, threading the world. -/
def processFiles (now : Nat) (output_dir archive_dir : String) :
    List String → World → List (String × FileResult) × World
  | [], w => ([], w)
  | p :: rest, w =>
    match process_excel_file now p output_dir archive_dir w with
    | Except.ok (out, w') =>
      let t := processFiles now output_dir archive_dir rest w'
      ((p, ⟨true, some out, none⟩) :: t.1, t.2)
    | Except.error (e, w') =>
      let t := processFiles now output_dir archive_dir rest w'
      ((p, ⟨false, none, some e⟩) :: t.1, t.2)

/-- Embedding of `process_all_excel_files`: discover once, then run the loop. -/
def process_all_excel_files (now : Nat) (directory output_dir archive_dir : String)
    (w : World) : List (String × FileResult) × World :=
  processFiles now output_dir archive_dir (find_excel_files w directory) w

/-! ### Lemmas about the regex searches -/

/-- A digit character is not a whitespace character. -/
theorem digit_not_space {c : Char} (h : isDigitChar c = true) : isSpaceChar c = false := by
  cases hs : isSpaceChar c with
  | false => rfl
  | true =>
    exfalso
    simp only [isSpaceChar, Bool.or_eq_true, beq_iff_eq] at hs
    rcases hs with ((((h1 | h1) | h1) | h1) | h1) | h1 <;> subst h1 <;>
      exact absurd h (by decide)

/-- An occurrence of the dotted pattern `(\d{2})\.(\d{2})\.(\d{2})` inside `l`,
starting after the prefix `pre`. -/
def DotOcc (l pre : List Char) (a b c d e f : Char) (t : List Char) : Prop :=
  l = pre ++ a :: b :: '.' :: c :: d :: '.' :: e :: f :: t ∧
  isDigitChar a = true ∧ isDigitChar b = true ∧ isDigitChar c = true ∧
  isDigitChar d = true ∧ isDigitChar e = true ∧ isDigitChar f = true

theorem matchDotAt_cons {a b c d e f : Char} (t : List Char)
    (ha : isDigitChar a = true) (hb : isDigitChar b = true) (hc : isDigitChar c = true)
    (hd : isDigitChar d = true) (he : isDigitChar e = true) (hf : isDigitChar f = true) :
    matchDotAt (a :: b :: '.' :: c :: d :: '.' :: e :: f :: t) =
      some (twoDigitVal a b, twoDigitVal c d, twoDigitVal e f) := by
  simp [matchDotAt, ha, hb, hc, hd, he, hf]

theorem matchDotAt_eq_some {l : List Char} {r : Nat × Nat × Nat}
    (h : matchDotAt l = some r) :
    ∃ a b c d e f t, l = a :: b :: '.' :: c :: d :: '.' :: e :: f :: t ∧
      isDigitChar a = true ∧ isDigitChar b = true ∧ isDigitChar c = true ∧
      isDigitChar d = true ∧ isDigitChar e = true ∧ isDigitChar f = true ∧
      r = (twoDigitVal a b, twoDigitVal c d, twoDigitVal e f) := by
  rcases l with _ | ⟨a, l⟩; · simp [matchDotAt] at h
  rcases l with _ | ⟨b, l⟩; · simp [matchDotAt] at h
  rcases l with _ | ⟨p, l⟩; · simp [matchDotAt] at h
  rcases l with _ | ⟨c, l⟩; · simp [matchDotAt] at h
  rcases l with _ | ⟨d, l⟩; · simp [matchDotAt] at h
  rcases l with _ | ⟨q, l⟩; · simp [matchDotAt] at h
  rcases l with _ | ⟨e, l⟩; · simp [matchDotAt] at h
  rcases l with _ | ⟨f, t⟩; · simp [matchDotAt] at h
  simp only [matchDotAt] at h
  split_ifs at h with hcond
  · simp only [Bool.and_eq_true, beq_iff_eq] at hcond
    obtain ⟨⟨⟨⟨⟨⟨⟨ha, hb⟩, hp⟩, hc⟩, hd⟩, hq⟩, he⟩, hf⟩ := hcond
    subst hp; subst hq
    injection h with h
    exact ⟨a, b, c, d, e, f, t, rfl, ha, hb, hc, hd, he, hf, h.symm⟩

theorem searchDot_cons_some {x : Char} {xs : List Char} {r : Nat × Nat × Nat}
    (h : matchDotAt (x :: xs) = some r) : searchDot (x :: xs) = some r := by
  simp [searchDot, h]

theorem searchDot_cons_none {x : Char} {xs : List Char}
    (h : matchDotAt (x :: xs) = none) : searchDot (x :: xs) = searchDot xs := by
  simp [searchDot, h]

theorem searchDot_isSome {l pre : List Char} {a b c d e f : Char} {t : List Char}
    (h : DotOcc l pre a b c d e f t) : ∃ r, searchDot l = some r := by
  obtain ⟨hl, ha, hb, hc, hd, he, hf⟩ := h
  subst hl
  induction pre with
  | nil =>
    exact ⟨(twoDigitVal a b, twoDigitVal c d, twoDigitVal e f),
      by rw [List.nil_append]; exact searchDot_cons_some (matchDotAt_cons t ha hb hc hd he hf)⟩
  | cons y ys ih =>
    obtain ⟨r, hr⟩ := ih
    rw [List.cons_append]
    cases hm : matchDotAt (y :: (ys ++ a :: b :: '.' :: c :: d :: '.' :: e :: f :: t)) with
    | some r' => exact ⟨r', searchDot_cons_some hm⟩
    | none => exact ⟨r, by rw [searchDot_cons_none hm]; exact hr⟩

theorem searchDot_sound :
    ∀ {l : List Char} {r : Nat × Nat × Nat}, searchDot l = some r →
      ∃ pre a b c d e f t, DotOcc l pre a b c d e f t ∧
        r = (twoDigitVal a b, twoDigitVal c d, twoDigitVal e f) ∧
        ∀ pre₂ a₂ b₂ c₂ d₂ e₂ f₂ t₂, DotOcc l pre₂ a₂ b₂ c₂ d₂ e₂ f₂ t₂ →
          pre.length ≤ pre₂.length := by
  intro l
  induction l with
  | nil => intro r h; simp [searchDot] at h
  | cons x xs ih =>
    intro r h
    cases hm : matchDotAt (x :: xs) with
    | some r' =>
      rw [searchDot_cons_some hm] at h
      injection h with h
      obtain ⟨a, b, c, d, e, f, t, hl, ha, hb, hc, hd, he, hf, hr⟩ := matchDotAt_eq_some hm
      refine ⟨[], a, b, c, d, e, f, t, ⟨by simpa using hl, ha, hb, hc, hd, he, hf⟩,
        by rw [← h, hr], fun pre₂ _ _ _ _ _ _ _ _ => Nat.zero_le _⟩
    | none =>
      rw [searchDot_cons_none hm] at h
      obtain ⟨pre, a, b, c, d, e, f, t, ⟨hl, hds⟩, hr, hmin⟩ := ih h
      refine ⟨x :: pre, a, b, c, d, e, f, t, ⟨by simp [hl], hds⟩, hr, ?_⟩
      intro pre₂ a₂ b₂ c₂ d₂ e₂ f₂ t₂ hocc₂
      obtain ⟨hl₂, hds₂⟩ := hocc₂
      cases pre₂ with
      | nil =>
        exfalso
        rw [List.nil_append] at hl₂
        rw [hl₂, matchDotAt_cons t₂ hds₂.1 hds₂.2.1 hds₂.2.2.1 hds₂.2.2.2.1
          hds₂.2.2.2.2.1 hds₂.2.2.2.2.2] at hm
        exact Option.noConfusion hm
      | cons y pre₂' =>
        rw [List.cons_append] at hl₂
        injection hl₂ with hxy hxs
        have := hmin pre₂' a₂ b₂ c₂ d₂ e₂ f₂ t₂ ⟨hxs, hds₂⟩
        simpa using Nat.succ_le_succ this

/-- An occurrence of the pattern `WE\s+(\d{2})(\d{2})(\d{2})` inside `l`, starting
after the prefix `pre`: the token `WE`, then the nonempty whitespace run `ws`, then
the six digits. -/
def WEOcc (l pre ws : List Char) (a b c d e f : Char) (t : List Char) : Prop :=
  l = pre ++ 'W' :: 'E' :: (ws ++ a :: b :: c :: d :: e :: f :: t) ∧
  ws ≠ [] ∧ (∀ x ∈ ws, isSpaceChar x = true) ∧
  isDigitChar a = true ∧ isDigitChar b = true ∧ isDigitChar c = true ∧
  isDigitChar d = true ∧ isDigitChar e = true ∧ isDigitChar f = true

theorem sixDigits_cons {a b c d e f : Char} (t : List Char)
    (ha : isDigitChar a = true) (hb : isDigitChar b = true) (hc : isDigitChar c = true)
    (hd : isDigitChar d = true) (he : isDigitChar e = true) (hf : isDigitChar f = true) :
    sixDigits (a :: b :: c :: d :: e :: f :: t) =
      some (twoDigitVal a b, twoDigitVal c d, twoDigitVal e f) := by
  simp [sixDigits, ha, hb, hc, hd, he, hf]

theorem sixDigits_eq_some {l : List Char} {r : Nat × Nat × Nat}
    (h : sixDigits l = some r) :
    ∃ a b c d e f t, l = a :: b :: c :: d :: e :: f :: t ∧
      isDigitChar a = true ∧ isDigitChar b = true ∧ isDigitChar c = true ∧
      isDigitChar d = true ∧ isDigitChar e = true ∧ isDigitChar f = true ∧
      r = (twoDigitVal a b, twoDigitVal c d, twoDigitVal e f) := by
  rcases l with _ | ⟨a, l⟩; · simp [sixDigits] at h
  rcases l with _ | ⟨b, l⟩; · simp [sixDigits] at h
  rcases l with _ | ⟨c, l⟩; · simp [sixDigits] at h
  rcases l with _ | ⟨d, l⟩; · simp [sixDigits] at h
  rcases l with _ | ⟨e, l⟩; · simp [sixDigits] at h
  rcases l with _ | ⟨f, t⟩; · simp [sixDigits] at h
  simp only [sixDigits] at h
  split_ifs at h with hcond
  simp only [Bool.and_eq_true] at hcond
  obtain ⟨⟨⟨⟨⟨ha, hb⟩, hc⟩, hd⟩, he⟩, hf⟩ := hcond
  injection h with h
  exact ⟨a, b, c, d, e, f, t, rfl, ha, hb, hc, hd, he, hf, h.symm⟩

theorem dropWhile_append_of_all {p : Char → Bool} :
    ∀ {l₁ l₂ : List Char}, (∀ x ∈ l₁, p x = true) →
      List.dropWhile p (l₁ ++ l₂) = List.dropWhile p l₂ := by
  intro l₁
  induction l₁ with
  | nil => intro l₂ _; rfl
  | cons y ys ih =>
    intro l₂ h
    rw [List.cons_append, List.dropWhile_cons_of_pos (h y (by simp))]
    exact ih (fun x hx => h x (by simp [hx]))

theorem matchWEAt_occ {ws : List Char} {a b c d e f : Char} {t : List Char}
    (hws : ws ≠ []) (hsp : ∀ x ∈ ws, isSpaceChar x = true)
    (ha : isDigitChar a = true) (hb : isDigitChar b = true) (hc : isDigitChar c = true)
    (hd : isDigitChar d = true) (he : isDigitChar e = true) (hf : isDigitChar f = true) :
    matchWEAt ('W' :: 'E' :: (ws ++ a :: b :: c :: d :: e :: f :: t)) =
      some (twoDigitVal a b, twoDigitVal c d, twoDigitVal e f) := by
  cases ws with
  | nil => exact absurd rfl hws
  | cons w ws' =>
    have hw : isSpaceChar w = true := hsp w (by simp)
    rw [List.cons_append]
    simp only [matchWEAt, hw]
    rw [if_pos (by simp [hw])]
    rw [dropWhile_append_of_all (fun x hx => hsp x (by simp [hx]))]
    rw [List.dropWhile_cons_of_neg (by simp [digit_not_space ha])]
    exact sixDigits_cons t ha hb hc hd he hf

theorem matchWEAt_eq_some {l : List Char} {r : Nat × Nat × Nat}
    (h : matchWEAt l = some r) :
    ∃ ws a b c d e f t, l = 'W' :: 'E' :: (ws ++ a :: b :: c :: d :: e :: f :: t) ∧
      ws ≠ [] ∧ (∀ x ∈ ws, isSpaceChar x = true) ∧
      isDigitChar a = true ∧ isDigitChar b = true ∧ isDigitChar c = true ∧
      isDigitChar d = true ∧ isDigitChar e = true ∧ isDigitChar f = true ∧
      r = (twoDigitVal a b, twoDigitVal c d, twoDigitVal e f) := by
  rcases l with _ | ⟨c₁, l⟩; · simp [matchWEAt] at h
  rcases l with _ | ⟨c₂, l⟩; · simp [matchWEAt] at h
  rcases l with _ | ⟨c₃, rest⟩; · simp [matchWEAt] at h
  simp only [matchWEAt] at h
  split_ifs at h with hcond
  simp only [Bool.and_eq_true, beq_iff_eq] at hcond
  obtain ⟨⟨h1, h2⟩, h3⟩ := hcond
  subst h1; subst h2
  obtain ⟨a, b, c, d, e, f, t, hform, ha, hb, hc, hd, he, hf, hr⟩ := sixDigits_eq_some h
  refine ⟨c₃ :: rest.takeWhile isSpaceChar, a, b, c, d, e, f, t, ?_, by simp, ?_,
    ha, hb, hc, hd, he, hf, hr⟩
  · have hsplit : rest.takeWhile isSpaceChar ++ rest.dropWhile isSpaceChar = rest :=
      List.takeWhile_append_dropWhile isSpaceChar rest
    rw [List.cons_append, ← hform, hsplit]
  · intro x hx
    rcases List.mem_cons.mp hx with h' | h'
    · exact h' ▸ h3
    · exact List.mem_takeWhile_imp h'

theorem searchWE_cons_some {x : Char} {xs : List Char} {r : Nat × Nat × Nat}
    (h : matchWEAt (x :: xs) = some r) : searchWE (x :: xs) = some r := by
  simp [searchWE, h]

theorem searchWE_cons_none {x : Char} {xs : List Char}
    (h : matchWEAt (x :: xs) = none) : searchWE (x :: xs) = searchWE xs := by
  simp [searchWE, h]

theorem searchWE_isSome {l pre ws : List Char} {a b c d e f : Char} {t : List Char}
    (h : WEOcc l pre ws a b c d e f t) : ∃ r, searchWE l = some r := by
  obtain ⟨hl, hws, hsp, ha, hb, hc, hd, he, hf⟩ := h
  subst hl
  induction pre with
  | nil =>
    exact ⟨(twoDigitVal a b, twoDigitVal c d, twoDigitVal e f),
      by rw [List.nil_append]
         exact searchWE_cons_some (matchWEAt_occ hws hsp ha hb hc hd he hf)⟩
  | cons y ys ih =>
    obtain ⟨r, hr⟩ := ih
    rw [List.cons_append]
    cases hm : matchWEAt (y :: (ys ++ 'W' :: 'E' :: (ws ++ a :: b :: c :: d :: e :: f :: t))) with
    | some r' => exact ⟨r', searchWE_cons_some hm⟩
    | none => exact ⟨r, by rw [searchWE_cons_none hm]; exact hr⟩

theorem searchWE_sound :
    ∀ {l : List Char} {r : Nat × Nat × Nat}, searchWE l = some r →
      ∃ pre ws a b c d e f t, WEOcc l pre ws a b c d e f t ∧
        r = (twoDigitVal a b, twoDigitVal c d, twoDigitVal e f) := by
  intro l
  induction l with
  | nil => intro r h; simp [searchWE] at h
  | cons x xs ih =>
    intro r h
    cases hm : matchWEAt (x :: xs) with
    | some r' =>
      rw [searchWE_cons_some hm] at h
      injection h with h
      obtain ⟨ws, a, b, c, d, e, f, t, hl, hws, hsp, ha, hb, hc, hd, he, hf, hr⟩ :=
        matchWEAt_eq_some hm
      exact ⟨[], ws, a, b, c, d, e, f, t,
        ⟨by simpa using hl, hws, hsp, ha, hb, hc, hd, he, hf⟩, by rw [← h, hr]⟩
    | none =>
      rw [searchWE_cons_none hm] at h
      obtain ⟨pre, ws, a, b, c, d, e, f, t, ⟨hl, hrest⟩, hr⟩ := ih h
      exact ⟨x :: pre, ws, a, b, c, d, e, f, t, ⟨by simp [hl], hrest⟩, hr⟩

/-! ### Decimal rendering lemmas -/

theorem natToDecAux_length :
    ∀ fuel n : Nat, 1 ≤ fuel → n < 10 ^ fuel →
      (natToDecAux fuel n).length = Nat.log 10 n + 1 := by
  intro fuel
  induction fuel with
  | zero => intro n h _; omega
  | succ f ih =>
    intro n _ hlt
    by_cases h10 : n < 10
    · simp only [natToDecAux, if_pos h10, List.length_singleton]
      rw [Nat.log_eq_zero_iff.mpr (Or.inl h10)]
    · simp only [natToDecAux, if_neg h10, List.length_append, List.length_singleton]
      have hf : 1 ≤ f := by
        rcases Nat.eq_zero_or_pos f with h0 | h0
        · subst h0; simp at hlt; omega
        · exact h0
      have h2 : n / 10 < 10 ^ f := by
        rw [Nat.div_lt_iff_lt_mul (by norm_num)]
        calc n < 10 ^ (f + 1) := hlt
          _ = 10 ^ f * 10 := by rw [pow_succ]
      rw [ih (n / 10) hf h2, Nat.log_div_base]
      have hpos : 0 < Nat.log 10 n := Nat.log_pos (by norm_num) (by omega)
      omega

theorem natToDec_length (n : Nat) : (natToDec n).length = Nat.log 10 n + 1 := by
  have h : n < 10 ^ (n + 1) := by
    calc n < 10 ^ n := Nat.lt_pow_self (by norm_num) n
      _ ≤ 10 ^ (n + 1) := Nat.pow_le_pow_right (by norm_num) (by omega)
  exact natToDecAux_length (n + 1) n (by omega) h

theorem pad2_length {n : Nat} (h : n < 100) : (pad2 n).length = 2 := by
  by_cases h10 : n < 10
  · simp only [pad2, if_pos h10, List.length_cons, natToDec_length]
    rw [Nat.log_eq_zero_iff.mpr (Or.inl h10)]
  · simp only [pad2, if_neg h10, natToDec_length]
    rw [Nat.log_eq_of_pow_le_of_lt_pow (m := 1) (by simpa using Nat.not_lt.mp h10)
      (by simpa using h)]

/-! ### Claim theorems about DateExtractor and formatting -/

/-- C5: for every filename containing a substring of the form two digits, literal
dot, two digits, literal dot, two digits, `extract_date_from_filename` returns
(first pair as month, second pair as day, 2000 + third pair as year) taken from the
first (leftmost) such match, with no validation that month ≤ 12 or day ≤ 31, and
this rule takes priority over the WE rule and the fallback regardless of other
content in the filename (the result holds for every clock value `now`). -/
theorem C5_dot_pattern_first_match (now : Nat) (s : String) (pre : List Char)
    (a b c d e f : Char) (t : List Char) (hocc : DotOcc s.data pre a b c d e f t) :
    ∃ pre' a' b' c' d' e' f' t',
      DotOcc s.data pre' a' b' c' d' e' f' t' ∧
      (∀ pre₂ a₂ b₂ c₂ d₂ e₂ f₂ t₂, DotOcc s.data pre₂ a₂ b₂ c₂ d₂ e₂ f₂ t₂ →
        pre'.length ≤ pre₂.length) ∧
      extract_date_from_filename now s =
        (twoDigitVal a' b', twoDigitVal c' d', 2000 + twoDigitVal e' f') := by
  obtain ⟨r, hr⟩ := searchDot_isSome hocc
  obtain ⟨pre', a', b', c', d', e', f', t', hocc', hval, hmin⟩ := searchDot_sound hr
  subst hval
  exact ⟨pre', a', b', c', d', e', f', t', hocc', hmin,
    by simp [extract_date_from_filename, hr]⟩

/-- C5 witness: the filename "x13.45.99y" (month 13, day 45: accepted unvalidated). -/
theorem C5_dot_pattern_first_match_witness :
    DotOcc "x13.45.99y".data ['x'] '1' '3' '4' '5' '9' '9' ['y'] ∧
    extract_date_from_filename 0 "x13.45.99y" = (13, 45, 2099) ∧
    (∃ pre' a' b' c' d' e' f' t',
      DotOcc "x13.45.99y".data pre' a' b' c' d' e' f' t' ∧
      (∀ pre₂ a₂ b₂ c₂ d₂ e₂ f₂ t₂, DotOcc "x13.45.99y".data pre₂ a₂ b₂ c₂ d₂ e₂ f₂ t₂ →
        pre'.length ≤ pre₂.length) ∧
      extract_date_from_filename 0 "x13.45.99y" =
        (twoDigitVal a' b', twoDigitVal c' d', 2000 + twoDigitVal e' f')) :=
  ⟨⟨by decide, by decide, by decide, by decide, by decide, by decide, by decide⟩,
    by decide,
    C5_dot_pattern_first_match 0 "x13.45.99y" ['x'] '1' '3' '4' '5' '9' '9' ['y']
      ⟨by decide, by decide, by decide, by decide, by decide, by decide, by decide⟩⟩

/-- C1 counterexample: the filename "01.02.03 WE 042025" contains the literal token
`WE` followed by whitespace and six digits (it even contains the substring
"WE 042025"), yet `extract_date_from_filename` returns (1, 2, 2003) — the dotted
pattern wins — and not (4, 20, 2025) as the claim, read unconditionally, demands. -/
theorem C1_counterexample :
    containsSub "WE 042025".data "01.02.03 WE 042025".data = true ∧
    extract_date_from_filename 739021 "01.02.03 WE 042025" = (1, 2, 2003) ∧
    extract_date_from_filename 739021 "01.02.03 WE 042025" ≠ (4, 20, 2025) :=
  ⟨by decide, by decide, by decide⟩

/-- C1 (amended): for every filename that contains NO dotted `DD.DD.DD` substring
and contains the literal token `WE` followed by whitespace and then six digits with
no intervening separator, `extract_date_from_filename` returns the tuple built from
the six-digit block of such an occurrence (the one the leftmost search finds),
consumed in strict 2-2-2 order: first two digits as month, next two as day,
2000 + last two as year. -/
theorem C1_WE_pattern (now : Nat) (s : String) (pre ws : List Char)
    (a b c d e f : Char) (t : List Char)
    (hdot : searchDot s.data = none)
    (hocc : WEOcc s.data pre ws a b c d e f t) :
    ∃ pre' ws' a' b' c' d' e' f' t',
      WEOcc s.data pre' ws' a' b' c' d' e' f' t' ∧
      extract_date_from_filename now s =
        (twoDigitVal a' b', twoDigitVal c' d', 2000 + twoDigitVal e' f') := by
  obtain ⟨r, hr⟩ := searchWE_isSome hocc
  obtain ⟨pre', ws', a', b', c', d', e', f', t', hocc', hval⟩ := searchWE_sound hr
  subst hval
  exact ⟨pre', ws', a', b', c', d', e', f', t', hocc',
    by simp [extract_date_from_filename, hdot, hr]⟩

/-- C1 witness: "Trends WE 042025.xlsx" yields (4, 20, 2025) — day 20, not 25. -/
theorem C1_WE_pattern_witness :
    searchDot "Trends WE 042025.xlsx".data = none ∧
    WEOcc "Trends WE 042025.xlsx".data "Trends ".data [' '] '0' '4' '2' '0' '2' '5'
      ".xlsx".data ∧
    extract_date_from_filename 739021 "Trends WE 042025.xlsx" = (4, 20, 2025) ∧
    (∃ pre' ws' a' b' c' d' e' f' t',
      WEOcc "Trends WE 042025.xlsx".data pre' ws' a' b' c' d' e' f' t' ∧
      extract_date_from_filename 739021 "Trends WE 042025.xlsx" =
        (twoDigitVal a' b', twoDigitVal c' d', 2000 + twoDigitVal e' f')) :=
  ⟨by decide,
    ⟨by decide, by decide, by decide, by decide, by decide, by decide, by decide,
      by decide, by decide⟩,
    by decide,
    C1_WE_pattern 739021 "Trends WE 042025.xlsx" "Trends ".data [' '] '0' '4' '2' '0' '2' '5'
      ".xlsx".data (by decide)
      ⟨by decide, by decide, by decide, by decide, by decide, by decide, by decide,
        by decide, by decide⟩⟩

/-- C2 counterexample: on Sunday 2024-05-12 (weekday() = 6, so the code subtracts
6 + 1 = 7 days) the fallback returns (5, 5, 2024), the Sunday a week earlier, and
not (5, 12, 2024) as a 0-day offset on Sundays would demand. -/
theorem C2_counterexample :
    pyWeekday (toDays 2024 5 12) = 6 ∧
    searchDot "report.xlsx".data = none ∧
    searchWE "report.xlsx".data = none ∧
    extract_date_from_filename (toDays 2024 5 12) "report.xlsx" = (5, 5, 2024) ∧
    extract_date_from_filename (toDays 2024 5 12) "report.xlsx" ≠ (5, 12, 2024) :=
  ⟨by decide, by decide, by decide, by decide, by decide⟩

/-- C2 (amended): for every filename matching neither the dotted pattern nor the WE
pattern, `extract_date_from_filename` returns the (month, day, year) of today minus
(weekday() + 1) days, an offset of 1 when today is Monday up to 6 when Saturday but
7 when today is Sunday; the returned date is always a Sunday strictly before today
(on a Sunday, the previous week's Sunday). -/
theorem C2_fallback_previous_sunday (now : Nat) (s : String) (hnow : 8 ≤ now)
    (hdot : searchDot s.data = none) (hwe : searchWE s.data = none) :
    extract_date_from_filename now s =
      ((fromDays (now - (pyWeekday now + 1))).2.1,
       (fromDays (now - (pyWeekday now + 1))).2.2,
       (fromDays (now - (pyWeekday now + 1))).1) ∧
    1 ≤ pyWeekday now + 1 ∧ pyWeekday now + 1 ≤ 7 ∧
    pyWeekday (now - (pyWeekday now + 1)) = 6 ∧
    (pyWeekday now = 6 → pyWeekday now + 1 = 7) := by
  refine ⟨by simp [extract_date_from_filename, hdot, hwe], by omega, ?_, ?_, ?_⟩
  · unfold pyWeekday; omega
  · unfold pyWeekday; omega
  · intro h; omega

/-- C2 witness: mocked Wednesday 2024-05-15 falls back to Sunday (5, 12, 2024). -/
theorem C2_fallback_previous_sunday_witness :
    8 ≤ toDays 2024 5 15 ∧
    pyWeekday (toDays 2024 5 15) = 2 ∧
    extract_date_from_filename (toDays 2024 5 15) "report.xlsx" = (5, 12, 2024) ∧
    (extract_date_from_filename (toDays 2024 5 15) "report.xlsx" =
      ((fromDays (toDays 2024 5 15 - (pyWeekday (toDays 2024 5 15) + 1))).2.1,
       (fromDays (toDays 2024 5 15 - (pyWeekday (toDays 2024 5 15) + 1))).2.2,
       (fromDays (toDays 2024 5 15 - (pyWeekday (toDays 2024 5 15) + 1))).1) ∧
     1 ≤ pyWeekday (toDays 2024 5 15) + 1 ∧ pyWeekday (toDays 2024 5 15) + 1 ≤ 7 ∧
     pyWeekday (toDays 2024 5 15 - (pyWeekday (toDays 2024 5 15) + 1)) = 6 ∧
     (pyWeekday (toDays 2024 5 15) = 6 → pyWeekday (toDays 2024 5 15) + 1 = 7)) :=
  ⟨by decide, by decide, by decide,
    C2_fallback_previous_sunday (toDays 2024 5 15) "report.xlsx" (by decide)
      (by decide) (by decide)⟩

/-- C6: `format_date` renders MM-DD-YYYY: month and day zero-padded to exactly two
digits and the year as a four-digit field, over the ReportDate domain (two-digit
month and day fields, four-digit year); in particular the two documented examples. -/
theorem C6_format_date (m d y : Nat) (hm : m < 100) (hd : d < 100)
    (hy1 : 1000 ≤ y) (hy2 : y < 10000) :
    (format_date (m, d, y)).data = pad2 m ++ '-' :: pad2 d ++ '-' :: natToDec y ∧
    (pad2 m).length = 2 ∧ (pad2 d).length = 2 ∧ (natToDec y).length = 4 ∧
    (format_date (m, d, y)).length = 10 ∧
    format_date (4, 27, 2025) = "04-27-2025" ∧
    format_date (1, 1, 2024) = "01-01-2024" := by
  have h4 : (natToDec y).length = 4 := by
    rw [natToDec_length, Nat.log_eq_of_pow_le_of_lt_pow (m := 3)
      (by calc (10:Nat) ^ 3 = 1000 := by norm_num
        _ ≤ y := hy1)
      (by calc y < 10000 := hy2
        _ = 10 ^ (3 + 1) := by norm_num)]
  refine ⟨rfl, pad2_length hm, pad2_length hd, h4, ?_, by decide, by decide⟩
  show (pad2 m ++ '-' :: pad2 d ++ '-' :: natToDec y).length = 10
  simp [List.length_append, pad2_length hm, pad2_length hd, h4]

/-- C6 witness: the documented example (4, 27, 2025). -/
theorem C6_format_date_witness :
    (4 < 100 ∧ 27 < 100 ∧ 1000 ≤ 2025 ∧ 2025 < 10000) ∧
    ((format_date (4, 27, 2025)).data =
        pad2 4 ++ '-' :: pad2 27 ++ '-' :: natToDec 2025 ∧
      (pad2 4).length = 2 ∧ (pad2 27).length = 2 ∧ (natToDec 2025).length = 4 ∧
      (format_date (4, 27, 2025)).length = 10 ∧
      format_date (4, 27, 2025) = "04-27-2025" ∧
      format_date (1, 1, 2024) = "01-01-2024") :=
  ⟨by decide, C6_format_date 4 27 2025 (by decide) (by decide) (by decide) (by decide)⟩

/-! ### File-discovery lemmas and claims -/

theorem containsSub_correct {pat : List Char} :
    ∀ {l : List Char}, containsSub pat l = true ↔ pat <:+: l := by
  intro l
  induction l with
  | nil =>
    simp only [containsSub, List.isEmpty_iff]
    constructor
    · intro h; subst h; exact List.infix_refl []
    · intro h; exact List.eq_nil_of_infix_nil h
  | cons c cs ih =>
    simp only [containsSub, Bool.or_eq_true, ih, List.isPrefixOf_iff_prefix]
    rw [List.infix_cons_iff]

theorem childName_prefix {dir p name : List Char}
    (h : childName dir p = some name) : dir <+: p := by
  unfold childName at h
  split_ifs at h with h1
  have hpre : dirPrefixL dir <+: p := List.isPrefixOf_iff_prefix.mp h1
  have hself : dir <+: dirPrefixL dir := by
    unfold dirPrefixL
    split_ifs
    · exact List.prefix_refl dir
    · exact List.prefix_append dir ['/']
  exact hself.trans hpre

theorem globExt_childName {w : World} {directory : String} {ext : List Char} {p : String}
    (h : p ∈ globExt w directory ext) :
    ∃ name, childName directory.data p.data = some name := by
  unfold globExt at h
  have hf := (List.mem_filter.mp h).2
  cases hc : childName directory.data p.data with
  | some name => exact ⟨name, rfl⟩
  | none => rw [hc] at hf; simp at hf

/-- C7: no path returned by `find_excel_files` contains the substring
"modified_excel_workbooks" or the substring "archived_data" anywhere in it. -/
theorem C7_no_special_dir_substrings (w : World) (directory : String) (p : String)
    (h : p ∈ find_excel_files w directory) :
    containsSub "modified_excel_workbooks".data p.data = false ∧
    containsSub "archived_data".data p.data = false := by
  simp only [find_excel_files] at h
  have hf := (List.mem_filter.mp h).2
  simp only [Bool.and_eq_true, Bool.not_eq_true'] at hf
  exact hf

/-- C7 witness: a directory holding a plain workbook plus a file whose mere name
contains "archived_data"; the returned path carries neither substring. -/
theorem C7_no_special_dir_substrings_witness :
    "d/report.xlsx" ∈ find_excel_files
      { files := [("d/report.xlsx", FSFile.raw 0), ("d/xarchived_datay.xlsx", FSFile.raw 1)],
        badSave := fun _ => false, badMove := fun _ => false } "d" ∧
    (containsSub "modified_excel_workbooks".data "d/report.xlsx".data = false ∧
      containsSub "archived_data".data "d/report.xlsx".data = false) :=
  ⟨by decide,
    C7_no_special_dir_substrings
      { files := [("d/report.xlsx", FSFile.raw 0), ("d/xarchived_datay.xlsx", FSFile.raw 1)],
        badSave := fun _ => false, badMove := fun _ => false } "d" "d/report.xlsx" (by decide)⟩

/-- C9: scanning a directory whose own path contains "modified_excel_workbooks" or
"archived_data" as a substring returns the empty list, because the exclusion test is
applied to the full joined path of every candidate file. -/
theorem C9_excluded_directory_empty (w : World) (directory : String)
    (h : containsSub "modified_excel_workbooks".data directory.data = true ∨
      containsSub "archived_data".data directory.data = true) :
    find_excel_files w directory = [] := by
  simp only [find_excel_files]
  rw [List.filter_eq_nil_iff]
  intro p hp
  have hpre : directory.data <+: p.data := by
    rcases List.mem_append.mp hp with hg | hg
    · obtain ⟨name, hc⟩ := globExt_childName hg
      exact childName_prefix hc
    · obtain ⟨name, hc⟩ := globExt_childName hg
      exact childName_prefix hc
  intro hpred
  simp only [Bool.and_eq_true, Bool.not_eq_true'] at hpred
  rcases h with h | h
  · have : containsSub "modified_excel_workbooks".data p.data = true :=
      containsSub_correct.mpr ((containsSub_correct.mp h).trans hpre.isInfix)
    rw [this] at hpred
    exact absurd hpred.1 (by simp)
  · have : containsSub "archived_data".data p.data = true :=
      containsSub_correct.mpr ((containsSub_correct.mp h).trans hpre.isInfix)
    rw [this] at hpred
    exact absurd hpred.2 (by simp)

/-- C9 witness: scanning "archived_data" itself, with a workbook inside it. -/
theorem C9_excluded_directory_empty_witness :
    (containsSub "modified_excel_workbooks".data "archived_data".data = true ∨
      containsSub "archived_data".data "archived_data".data = true) ∧
    find_excel_files
      { files := [("archived_data/file5.xlsx", FSFile.raw 0)],
        badSave := fun _ => false, badMove := fun _ => false } "archived_data" = [] :=
  ⟨Or.inr (by decide),
    C9_excluded_directory_empty
      { files := [("archived_data/file5.xlsx", FSFile.raw 0)],
        badSave := fun _ => false, badMove := fun _ => false } "archived_data"
      (Or.inr (by decide))⟩

/-! ### Batch-runner lemmas and claims -/

theorem processFiles_map_fst (now : Nat) (output_dir archive_dir : String) :
    ∀ (l : List String) (w : World),
      (processFiles now output_dir archive_dir l w).1.map Prod.fst = l := by
  intro l
  induction l with
  | nil => intro w; rfl
  | cons p rest ih =>
    intro w
    simp only [processFiles]
    cases h : process_excel_file now p output_dir archive_dir w with
    | ok x => rcases x with ⟨out, w'⟩; simp [ih w']
    | error x => rcases x with ⟨e, w'⟩; simp [ih w']

theorem processFiles_entry_shape (now : Nat) (output_dir archive_dir : String) :
    ∀ (l : List String) (w : World) (pr : String × FileResult),
      pr ∈ (processFiles now output_dir archive_dir l w).1 →
      (pr.2.status = true ∧ (∃ o, pr.2.output = some o) ∧ pr.2.error = none) ∨
      (pr.2.status = false ∧ pr.2.output = none ∧ ∃ e, pr.2.error = some e) := by
  intro l
  induction l with
  | nil => intro w pr h; simp [processFiles] at h
  | cons p rest ih =>
    intro w pr h
    simp only [processFiles] at h
    cases hp : process_excel_file now p output_dir archive_dir w with
    | ok x =>
      rcases x with ⟨out, w'⟩
      rw [hp] at h
      rcases List.mem_cons.mp h with h' | h'
      · subst h'; exact Or.inl ⟨rfl, ⟨out, rfl⟩, rfl⟩
      · exact ih w' pr h'
    | error x =>
      rcases x with ⟨e, w'⟩
      rw [hp] at h
      rcases List.mem_cons.mp h with h' | h'
      · subst h'; exact Or.inr ⟨rfl, rfl, ⟨e, rfl⟩⟩
      · exact ih w' pr h'

/-- C4: `process_all_excel_files` never raises (it is a total function into a result
mapping); its result has exactly one entry per discovered file, keyed in discovery
order, and any entry whose success flag is false carries a captured error string —
so one file's failure never prevents processing of the remaining files. -/
theorem C4_batch_failure_boundary (now : Nat) (directory output_dir archive_dir : String)
    (w : World) :
    (process_all_excel_files now directory output_dir archive_dir w).1.map Prod.fst =
      find_excel_files w directory ∧
    ∀ pr ∈ (process_all_excel_files now directory output_dir archive_dir w).1,
      pr.2.status = false → ∃ e, pr.2.error = some e := by
  constructor
  · exact processFiles_map_fst now output_dir archive_dir (find_excel_files w directory) w
  · intro pr h hst
    rcases processFiles_entry_shape now output_dir archive_dir
      (find_excel_files w directory) w pr h with ⟨h1, _, _⟩ | ⟨_, _, h3⟩
    · rw [hst] at h1; exact absurd h1 (by simp)
    · exact h3

/-- Concrete batch world for the C4 witness: one unparseable workbook, one good one. -/
def c4world : World :=
  { files := [("d/bad.xlsx", FSFile.raw 0),
              ("d/good 05.15.24.xlsx", FSFile.wb ⟨[⟨"hidden", 1⟩]⟩)],
    badSave := fun _ => false, badMove := fun _ => false }

/-- The failing entry produced by the C4 witness batch. -/
def c4entry : String × FileResult :=
  ("d/bad.xlsx", ⟨false, none, some "cannot parse workbook: d/bad.xlsx"⟩)

/-- C4 witness: a batch over a directory with an unparseable workbook followed by a
second file; both get entries in discovery order, the failing one with an error
string, and the failure does not stop the batch. -/
theorem C4_batch_failure_boundary_witness :
    (process_all_excel_files 0 "d" "out" "arch" c4world).1.map Prod.fst =
      find_excel_files c4world "d" ∧
    (∃ e, c4entry.2.error = some e) :=
  ⟨(C4_batch_failure_boundary 0 "d" "out" "arch" c4world).1,
    (C4_batch_failure_boundary 0 "d" "out" "arch" c4world).2 c4entry
      (by decide) (by decide)⟩

/-- C8: every entry of the result mapping has exactly one of (output path, error
message) populated and the other `none`, and the success flag is true exactly when
the output path is populated. -/
theorem C8_exactly_one_populated (now : Nat) (directory output_dir archive_dir : String)
    (w : World) (pr : String × FileResult)
    (h : pr ∈ (process_all_excel_files now directory output_dir archive_dir w).1) :
    (pr.2.status = true ∧ (∃ o, pr.2.output = some o) ∧ pr.2.error = none) ∨
    (pr.2.status = false ∧ pr.2.output = none ∧ ∃ e, pr.2.error = some e) :=
  processFiles_entry_shape now output_dir archive_dir (find_excel_files w directory) w pr h

/-- Concrete batch world for the C8 witness. -/
def c8world : World :=
  { files := [("d/good 05.15.24.xlsx", FSFile.wb ⟨[⟨"hidden", 1⟩]⟩)],
    badSave := fun _ => false, badMove := fun _ => false }

/-- The successful entry produced by the C8 witness batch. -/
def c8entry : String × FileResult :=
  ("d/good 05.15.24.xlsx", ⟨true, some "out/05-15-2024_good 05.15.24.xlsx", none⟩)

/-- C8 witness: a successful entry has an output path, no error, and a true flag. -/
theorem C8_exactly_one_populated_witness :
    c8entry ∈ (process_all_excel_files 0 "d" "out" "arch" c8world).1 ∧
    ((c8entry.2.status = true ∧ (∃ o, c8entry.2.output = some o) ∧ c8entry.2.error = none) ∨
     (c8entry.2.status = false ∧ c8entry.2.output = none ∧ ∃ e, c8entry.2.error = some e)) :=
  ⟨by decide, C8_exactly_one_populated 0 "d" "out" "arch" c8world c8entry (by decide)⟩

/-! ### Filesystem-map lemmas -/

theorem lookup_removeFile_self (files : List (String × FSFile)) (p : String) :
    (removeFile files p).lookup p = none := by
  induction files with
  | nil => rfl
  | cons e t ih =>
    rcases e with ⟨q, f⟩
    by_cases h : q = p
    · subst h
      simpa [removeFile, List.filter_cons] using ih
    · simp only [removeFile, List.filter_cons] at ih ⊢
      rw [if_pos (by simpa using h)]
      rw [List.lookup_cons]
      have hbe : (p == q) = false := beq_eq_false_iff_ne.mpr (fun hh => h hh.symm)
      rw [hbe]
      exact ih

theorem lookup_removeFile_ne (files : List (String × FSFile)) {p q : String}
    (h : q ≠ p) : (removeFile files p).lookup q = files.lookup q := by
  induction files with
  | nil => rfl
  | cons e t ih =>
    rcases e with ⟨k, f⟩
    by_cases hk : k = p
    · simp only [removeFile, List.filter_cons] at ih ⊢
      rw [if_neg (by simp [hk])]
      have hbe : (q == k) = false := beq_eq_false_iff_ne.mpr (fun hh => h (hh.trans hk))
      rw [ih, List.lookup_cons, hbe]
    · simp only [removeFile, List.filter_cons] at ih ⊢
      rw [if_pos (by simpa using hk)]
      rw [List.lookup_cons, List.lookup_cons, ih]

theorem lookup_setFile_self (files : List (String × FSFile)) (p : String) (f : FSFile) :
    (setFile files p f).lookup p = some f := by
  simp [setFile, List.lookup_cons]

theorem lookup_setFile_ne (files : List (String × FSFile)) {p q : String} (f : FSFile)
    (h : q ≠ p) : (setFile files p f).lookup q = files.lookup q := by
  simp only [setFile, List.lookup_cons]
  have hbe : (q == p) = false := beq_eq_false_iff_ne.mpr h
  rw [hbe, lookup_removeFile_ne files h]

/-! ### Path lemmas: the computed output path can never equal the source path -/

theorem takeWhile_append_of_all {p : Char → Bool} :
    ∀ {l₁ l₂ : List Char}, (∀ x ∈ l₁, p x = true) →
      List.takeWhile p (l₁ ++ l₂) = l₁ ++ List.takeWhile p l₂ := by
  intro l₁
  induction l₁ with
  | nil => intro l₂ _; rfl
  | cons y ys ih =>
    intro l₂ h
    rw [List.cons_append, List.takeWhile_cons_of_pos (h y (by simp)), List.cons_append,
      ih (fun x hx => h x (by simp [hx]))]

theorem basenameL_append {d n : List Char} (h : ∀ c ∈ n, (c != '/') = true) :
    basenameL (d ++ n) = basenameL d ++ n := by
  unfold basenameL
  rw [List.reverse_append]
  rw [takeWhile_append_of_all (fun x hx => h x (List.mem_reverse.mp hx))]
  rw [List.reverse_append, List.reverse_reverse]

theorem joinPath_data (dir name : String) :
    ∃ d, (joinPath dir name).data = d ++ name.data := by
  unfold joinPath
  split_ifs with h1 h2 h3
  · exact ⟨[], rfl⟩
  · exact ⟨[], rfl⟩
  · exact ⟨dir.data, rfl⟩
  · exact ⟨dir.data ++ ['/'], by simp⟩

theorem digitChar_not_slash {k : Nat} (hk : k < 10) : (Nat.digitChar k != '/') = true := by
  interval_cases k <;> decide

theorem natToDecAux_chars :
    ∀ fuel n : Nat, ∀ c ∈ natToDecAux fuel n, (c != '/') = true := by
  intro fuel
  induction fuel with
  | zero => intro n c hc; simp [natToDecAux] at hc
  | succ f ih =>
    intro n c hc
    by_cases h10 : n < 10
    · simp only [natToDecAux, if_pos h10, List.mem_singleton] at hc
      subst hc
      exact digitChar_not_slash h10
    · simp only [natToDecAux, if_neg h10, List.mem_append, List.mem_singleton] at hc
      rcases hc with hc | hc
      · exact ih (n / 10) c hc
      · subst hc
        exact digitChar_not_slash (Nat.mod_lt n (by norm_num))

theorem natToDec_chars (n : Nat) : ∀ c ∈ natToDec n, (c != '/') = true :=
  fun c hc => natToDecAux_chars (n + 1) n c hc

theorem pad2_chars (n : Nat) : ∀ c ∈ pad2 n, (c != '/') = true := by
  intro c hc
  unfold pad2 at hc
  split_ifs at hc with h
  · rcases List.mem_cons.mp hc with hc | hc
    · subst hc; decide
    · exact natToDec_chars n c hc
  · exact natToDec_chars n c hc

theorem format_date_chars (t : Nat × Nat × Nat) :
    ∀ c ∈ (format_date t).data, (c != '/') = true := by
  intro c hc
  have hc' : c ∈ pad2 t.1 ++ '-' :: pad2 t.2.1 ++ '-' :: natToDec t.2.2 := hc
  rcases List.mem_append.mp hc' with h1 | h1
  · rcases List.mem_append.mp h1 with h2 | h2
    · exact pad2_chars t.1 c h2
    · rcases List.mem_cons.mp h2 with h3 | h3
      · subst h3; decide
      · exact pad2_chars t.2.1 c h3
  · rcases List.mem_cons.mp h1 with h2 | h2
    · subst h2; decide
    · exact natToDec_chars t.2.2 c h2

theorem basenameL_chars (l : List Char) : ∀ c ∈ basenameL l, (c != '/') = true := by
  intro c hc
  unfold basenameL at hc
  have hc' : c ∈ List.takeWhile (fun c => c != '/') l.reverse := List.mem_reverse.mp hc
  have h2 := List.mem_takeWhile_imp hc'
  exact h2

theorem newFilename_data (now : Nat) (p : String) :
    (create_new_filename now (basename p)).data =
      (format_date (extract_date_from_filename now (basename p))).data ++
        '_' :: basenameL p.data := by
  unfold create_new_filename
  rw [String.data_append, String.data_append]
  rw [show ("_" : String).data = ['_'] from rfl]
  rw [List.append_assoc]
  rfl

theorem newFilename_chars (now : Nat) (p : String) :
    ∀ c ∈ (create_new_filename now (basename p)).data, (c != '/') = true := by
  intro c hc
  rw [newFilename_data] at hc
  rcases List.mem_append.mp hc with hc | hc
  · exact format_date_chars _ c hc
  · rcases List.mem_cons.mp hc with hc | hc
    · subst hc; decide
    · exact basenameL_chars p.data c hc

/-- The computed output path is never the source path: its basename is strictly
longer (it carries the date prefix and the underscore). -/
theorem output_path_ne_source (now : Nat) (p output_dir : String) :
    get_output_path (create_new_filename now (basename p)) output_dir ≠ p := by
  intro heq
  obtain ⟨d, hd⟩ := joinPath_data output_dir (create_new_filename now (basename p))
  have hchars := newFilename_chars now p
  have hbase :
      basenameL (get_output_path (create_new_filename now (basename p)) output_dir).data =
        basenameL d ++ (create_new_filename now (basename p)).data := by
    unfold get_output_path
    rw [hd]
    exact basenameL_append hchars
  rw [heq] at hbase
  have hlen := congrArg List.length hbase
  rw [List.length_append, newFilename_data, List.length_append, List.length_cons] at hlen
  omega

/-! ### Per-file processing: inversion lemmas and claims C3, C10 -/

theorem loadWorkbook_ok_inv {w : World} {p : String} {b : Workbook}
    (h : loadWorkbook w p = Except.ok b) : lookupFile w p = some (FSFile.wb b) := by
  unfold loadWorkbook at h
  cases hl : lookupFile w p with
  | none => rw [hl] at h; simp at h
  | some f =>
    rw [hl] at h
    cases f with
    | raw dat => simp at h
    | wb b' => injection h with h; rw [h]

theorem unhide_ok_inv {w : World} {excel_path op : String} {w1 : World}
    (h : unhide_all_sheets w excel_path (some op) = Except.ok w1) :
    ∃ b, lookupFile w excel_path = some (FSFile.wb b) ∧
      w.badSave op = false ∧
      w1 = { w with files := setFile w.files op (FSFile.wb (unhideWb b)) } := by
  unfold unhide_all_sheets at h
  cases hload : loadWorkbook w excel_path with
  | error e => rw [hload] at h; simp at h
  | ok b =>
    rw [hload] at h
    have h' : saveWorkbook w op (unhideWb b) = Except.ok w1 := h
    unfold saveWorkbook at h'
    split_ifs at h' with hb
    injection h' with h'
    exact ⟨b, loadWorkbook_ok_inv hload, by simpa using hb, h'.symm⟩

theorem moveFile_ok_inv {w : World} {src dst : String} {w2 : World}
    (h : moveFile w src dst = Except.ok w2) :
    ∃ f, lookupFile w src = some f ∧ w.badMove dst = false ∧
      w2 = { w with files := setFile (removeFile w.files src) dst f } := by
  unfold moveFile at h
  cases hl : lookupFile w src with
  | none => rw [hl] at h; simp at h
  | some f =>
    rw [hl] at h
    have h' : (if w.badMove dst = true then
        (Except.error ("cannot move to: " ++ dst) : Except String World)
      else Except.ok { w with files := setFile (removeFile w.files src) dst f }) =
        Except.ok w2 := h
    split_ifs at h' with hb
    injection h' with h'
    exact ⟨f, rfl, by simpa using hb, h'.symm⟩

/-- C3 (amended): whenever `process_excel_file` returns without raising and the
source path differs from the computed archive path, it returns the output
directory joined with the date-prefixed basename, and afterwards the original,
untransformed file sits at `<archiveDir>/<original basename>` while the source
path no longer holds a file (move, not copy). -/
theorem C3_process_and_archive (now : Nat) (excel_path output_dir archive_dir : String)
    (w : World) (ret : String) (w' : World)
    (hne : excel_path ≠ get_archive_path (basename excel_path) archive_dir)
    (h : process_excel_file now excel_path output_dir archive_dir w =
      Except.ok (ret, w')) :
    ret = get_output_path (create_new_filename now (basename excel_path)) output_dir ∧
    ∃ f, lookupFile w excel_path = some f ∧
      lookupFile w' (get_archive_path (basename excel_path) archive_dir) = some f ∧
      lookupFile w' excel_path = none := by
  simp only [process_excel_file] at h
  cases hu : unhide_all_sheets w excel_path
      (some (get_output_path (create_new_filename now (basename excel_path)) output_dir)) with
  | error e => simp [hu] at h
  | ok w1 =>
    simp only [hu] at h
    cases hm : moveFile w1 excel_path (get_archive_path (basename excel_path) archive_dir) with
    | error e => simp [hm] at h
    | ok w2 =>
      simp only [hm] at h
      injection h with h
      injection h with hret hw
      subst hw
      obtain ⟨b, hload, hbs, hw1⟩ := unhide_ok_inv hu
      obtain ⟨f, hl1, hbm, hw2⟩ := moveFile_ok_inv hm
      have hne2 : excel_path ≠
          get_output_path (create_new_filename now (basename excel_path)) output_dir :=
        fun hh => output_path_ne_source now excel_path output_dir hh.symm
      have hstep : lookupFile w1 excel_path = lookupFile w excel_path := by
        rw [hw1]
        exact lookup_setFile_ne w.files (FSFile.wb (unhideWb b)) hne2
      refine ⟨hret.symm, f, hstep ▸ hl1, ?_, ?_⟩
      · rw [hw2]
        exact lookup_setFile_self (removeFile w1.files excel_path) _ f
      · rw [hw2]
        have h1 := lookup_setFile_ne (removeFile w1.files excel_path) f hne
        exact h1.trans (lookup_removeFile_self w1.files excel_path)

/-- Workbook used by the concrete per-file processing scenarios. -/
def wbC : Workbook := ⟨[⟨"hidden", 7⟩]⟩

/-- Source world for the C3 witness. -/
def c3world : World :=
  { files := [("srcdir/test 05.15.24.xlsx", FSFile.wb wbC)]
    badSave := fun _ => false
    badMove := fun _ => false }

/-- World after the C3 witness run: original archived, transformed copy written. -/
def c3world' : World :=
  { files := [("arch/test 05.15.24.xlsx", FSFile.wb wbC),
              ("out/05-15-2024_test 05.15.24.xlsx", FSFile.wb ⟨[⟨"visible", 7⟩]⟩)]
    badSave := fun _ => false
    badMove := fun _ => false }

/-- C3 witness: a concrete run; the date 05.15.24 in the name yields (5, 15, 2024),
the return value is `out/05-15-2024_test 05.15.24.xlsx`, the untransformed original
ends up at `arch/test 05.15.24.xlsx`, and the source entry is gone. -/
theorem C3_process_and_archive_witness :
    ("srcdir/test 05.15.24.xlsx" : String) ≠
      get_archive_path (basename "srcdir/test 05.15.24.xlsx") "arch" ∧
    process_excel_file 0 "srcdir/test 05.15.24.xlsx" "out" "arch" c3world =
      Except.ok ("out/05-15-2024_test 05.15.24.xlsx", c3world') ∧
    (("out/05-15-2024_test 05.15.24.xlsx" : String) =
      get_output_path (create_new_filename 0 (basename "srcdir/test 05.15.24.xlsx")) "out" ∧
    ∃ f, lookupFile c3world "srcdir/test 05.15.24.xlsx" = some f ∧
      lookupFile c3world' (get_archive_path (basename "srcdir/test 05.15.24.xlsx") "arch") =
        some f ∧
      lookupFile c3world' "srcdir/test 05.15.24.xlsx" = none) := by
  have hne : ("srcdir/test 05.15.24.xlsx" : String) ≠
      get_archive_path (basename "srcdir/test 05.15.24.xlsx") "arch" := by decide
  have hp : process_excel_file 0 "srcdir/test 05.15.24.xlsx" "out" "arch" c3world =
      Except.ok ("out/05-15-2024_test 05.15.24.xlsx", c3world') := by rfl
  exact ⟨hne, hp, C3_process_and_archive 0 "srcdir/test 05.15.24.xlsx" "out" "arch" c3world
    "out/05-15-2024_test 05.15.24.xlsx" c3world' hne hp⟩

/-- Source world for the C3 counterexample: the workbook already sits inside the
archive directory, so the computed archive path IS the source path. -/
def c3badWorld : World :=
  { files := [("archived_data/t 05.15.24.xlsx", FSFile.wb wbC)]
    badSave := fun _ => false
    badMove := fun _ => false }

/-- World after the C3 counterexample run: the source entry is still there. -/
def c3badWorld' : World :=
  { files := [("archived_data/t 05.15.24.xlsx", FSFile.wb wbC),
              ("out/05-15-2024_t 05.15.24.xlsx", FSFile.wb ⟨[⟨"visible", 7⟩]⟩)]
    badSave := fun _ => false
    badMove := fun _ => false }

/-- C3 counterexample: for the source path `archived_data/t 05.15.24.xlsx` with
archive directory `archived_data`, the computed archive path equals the source path
(shutil.move of a path onto itself succeeds and changes nothing), the call returns
without raising, and yet afterwards the source path still holds the file —
refuting the claim's unconditional "no longer exists at the source path". -/
theorem C3_counterexample :
    get_archive_path (basename "archived_data/t 05.15.24.xlsx") "archived_data" =
      "archived_data/t 05.15.24.xlsx" ∧
    process_excel_file 0 "archived_data/t 05.15.24.xlsx" "out" "archived_data" c3badWorld =
      Except.ok ("out/05-15-2024_t 05.15.24.xlsx", c3badWorld') ∧
    lookupFile c3badWorld' "archived_data/t 05.15.24.xlsx" ≠ none :=
  ⟨by decide, by rfl, by decide⟩

/-- C10: `process_excel_file` writes the transformed workbook to the output path
strictly before moving the source; if the move step raises after a successful save,
the propagated error carries the post-save world, in which the transformed copy
already exists at the output path and the untouched source still sits at its
original location — a failed per-file result does not mean the filesystem is
unchanged. -/
theorem C10_saved_before_move (now : Nat) (excel_path output_dir archive_dir : String)
    (w w1 : World) (e : String)
    (hu : unhide_all_sheets w excel_path
      (some (get_output_path (create_new_filename now (basename excel_path)) output_dir)) =
      Except.ok w1)
    (hm : moveFile w1 excel_path (get_archive_path (basename excel_path) archive_dir) =
      Except.error e) :
    process_excel_file now excel_path output_dir archive_dir w = Except.error (e, w1) ∧
    ∃ b, lookupFile w excel_path = some (FSFile.wb b) ∧
      lookupFile w1
        (get_output_path (create_new_filename now (basename excel_path)) output_dir) =
        some (FSFile.wb (unhideWb b)) ∧
      lookupFile w1 excel_path = some (FSFile.wb b) := by
  obtain ⟨b, hload, hbs, hw1⟩ := unhide_ok_inv hu
  have hne2 : excel_path ≠
      get_output_path (create_new_filename now (basename excel_path)) output_dir :=
    fun hh => output_path_ne_source now excel_path output_dir hh.symm
  refine ⟨?_, b, hload, ?_, ?_⟩
  · simp only [process_excel_file, hu, hm]
  · rw [hw1]
    exact lookup_setFile_self w.files _ _
  · rw [hw1]
    exact (lookup_setFile_ne w.files (FSFile.wb (unhideWb b)) hne2).trans hload

/-- Source world for the C10 witness: moving to the archive path raises. -/
def c10world : World :=
  { files := [("srcdir/test 05.15.24.xlsx", FSFile.wb wbC)]
    badSave := fun _ => false
    badMove := fun p => p == "arch/test 05.15.24.xlsx" }

/-- Post-save world of the C10 witness: output written, source untouched. -/
def c10world1 : World :=
  { files := [("out/05-15-2024_test 05.15.24.xlsx", FSFile.wb ⟨[⟨"visible", 7⟩]⟩),
              ("srcdir/test 05.15.24.xlsx", FSFile.wb wbC)]
    badSave := fun _ => false
    badMove := fun p => p == "arch/test 05.15.24.xlsx" }

/-- C10 witness: a concrete run where the save succeeds and the move raises; the
error result carries the post-save world with the transformed output present and
the source still in place. -/
theorem C10_saved_before_move_witness :
    unhide_all_sheets c10world "srcdir/test 05.15.24.xlsx"
      (some (get_output_path (create_new_filename 0 (basename "srcdir/test 05.15.24.xlsx"))
        "out")) = Except.ok c10world1 ∧
    moveFile c10world1 "srcdir/test 05.15.24.xlsx"
      (get_archive_path (basename "srcdir/test 05.15.24.xlsx") "arch") =
      Except.error "cannot move to: arch/test 05.15.24.xlsx" ∧
    (process_excel_file 0 "srcdir/test 05.15.24.xlsx" "out" "arch" c10world =
      Except.error ("cannot move to: arch/test 05.15.24.xlsx", c10world1) ∧
    ∃ b, lookupFile c10world "srcdir/test 05.15.24.xlsx" = some (FSFile.wb b) ∧
      lookupFile c10world1
        (get_output_path (create_new_filename 0 (basename "srcdir/test 05.15.24.xlsx")) "out") =
        some (FSFile.wb (unhideWb b)) ∧
      lookupFile c10world1 "srcdir/test 05.15.24.xlsx" = some (FSFile.wb b)) := by
  have hu : unhide_all_sheets c10world "srcdir/test 05.15.24.xlsx"
      (some (get_output_path (create_new_filename 0 (basename "srcdir/test 05.15.24.xlsx"))
        "out")) = Except.ok c10world1 := by rfl
  have hm : moveFile c10world1 "srcdir/test 05.15.24.xlsx"
      (get_archive_path (basename "srcdir/test 05.15.24.xlsx") "arch") =
      Except.error "cannot move to: arch/test 05.15.24.xlsx" := by rfl
  exact ⟨hu, hm, C10_saved_before_move 0 "srcdir/test 05.15.24.xlsx" "out" "arch"
    c10world c10world1 "cannot move to: arch/test 05.15.24.xlsx" hu hm⟩

end Circana
